import Mathlib

/-!
Verification of the COCBN roster dashboard core (src/app.py).

The development shallowly embeds the three core transforms of the source:
the unit-path resolver (get_unit_path_optimized, app.py lines 46-57), the
roster assembly (get_data, app.py lines 8-70), and the filter logic of the
main page (app.py lines 109-126), and proves the specification claims
about them.  The Python while-loop of the path walk is embedded with an
explicit fuel parameter: a result of none means the loop has not exited
within that many iterations.
-/

namespace COCBN

/-! ## Data model (spec section 3, mirroring the SQL tables of app.py) -/

/-- Row of the Unidade table: SELECT id_unidade, sigla, id_unidade_fk
(app.py line 12).  The id is the association key of the unit map. -/
structure UnidadeRow where
  sigla : String
  id_unidade_fk : Option Nat
deriving DecidableEq

/-- df_unidade.set_index(the id).to_dict (app.py line 44): an id-indexed
association table. -/
abbrev UnitMap := List (Nat × UnidadeRow)

/-- Generic association-table lookup, modelling Python dict .get (the
keys are unique in the source dictionaries; the first match is taken). -/
def lookup_assoc {β : Type} (t : List (Nat × β)) (k : Nat) : Option β :=
  match t with
  | [] => none
  | p :: rest => if p.1 = k then some p.2 else lookup_assoc rest k

/-- Row of the Militar table as selected in app.py lines 14-30. -/
structure MilitarRow where
  id_militar : Nat
  nome : String
  id_posto_graduacao_fk : Nat
  id_quadro_fk : Nat
  id_unidade_atual_fk : Option Nat
deriving DecidableEq

/-- Row of the Posto_Graduacao (rank) lookup table. -/
structure PostoRow where
  id_posto_graduacao : Nat
  sigla : String
  descricao : String
deriving DecidableEq

/-- Row of the Quadro (corps) lookup table. -/
structure QuadroRow where
  id_quadro : Nat
  sigla : String
  descricao : String
deriving DecidableEq

/-- Row of the militar_especialidade link table. -/
structure LinkRow where
  id_militar_fk : Nat
  id_especialidade_fk : Nat
deriving DecidableEq

/-- Row of the Especialidade table. -/
structure EspecialidadeRow where
  id_especialidade : Nat
  tipo_especialidade : String
deriving DecidableEq

/-! ## Path resolver (get_unit_path_optimized, app.py lines 46-57) -/

/-- Python str.join over a list of strings. -/
def join_with (sep : String) : List String → String
  | [] => ""
  | [x] => x
  | x :: y :: xs => x ++ sep ++ join_with sep (y :: xs)

/-- The while-loop of get_unit_path_optimized (app.py lines 48-56), with
explicit fuel counting loop iterations.  none means the loop has not
exited within fuel iterations.  current = none models a NaN current_id
(pd.notna false, loop exit); a failed unit_map lookup breaks the loop. -/
def get_unit_path_go (um : UnitMap) (fuel : Nat) (cur : Option Nat)
    (path : List String) : Option (List String) :=
  match cur with
  | none => some path
  | some i =>
    match fuel with
    | 0 => none
    | fuel2 + 1 =>
      match lookup_assoc um i with
      | none => some path
      | some info => get_unit_path_go um fuel2 info.id_unidade_fk (path ++ [info.sigla])

/-- get_unit_path_optimized (app.py lines 46-57): walk the parent chain,
then reverse and join with the path delimiter. -/
def get_unit_path_optimized (um : UnitMap) (fuel : Nat) (uid : Option Nat) :
    Option String :=
  (get_unit_path_go um fuel uid []).map fun p => join_with " / " p.reverse

/-- The resolve_paths entry point of the spec at one present unit id. -/
def resolve_path (um : UnitMap) (fuel : Nat) (i : Nat) : Option String :=
  get_unit_path_optimized um fuel (some i)

/-! ### Helper lemmas about the walk -/

theorem get_unit_path_go_append (um : UnitMap) :
    ∀ (fuel : Nat) (cur : Option Nat) (acc : List String),
      get_unit_path_go um fuel cur acc =
        (get_unit_path_go um fuel cur []).map fun p => acc ++ p := by
  intro fuel
  induction fuel with
  | zero =>
    intro cur acc
    cases cur with
    | none => simp [get_unit_path_go]
    | some i => simp [get_unit_path_go]
  | succ f ih =>
    intro cur acc
    cases cur with
    | none => simp [get_unit_path_go]
    | some i =>
      cases h : lookup_assoc um i with
      | none => simp [get_unit_path_go, h]
      | some info =>
        simp only [get_unit_path_go, h]
        rw [ih _ (acc ++ [info.sigla]), ih _ ([] ++ [info.sigla])]
        cases get_unit_path_go um f info.id_unidade_fk [] with
        | none => simp
        | some p => simp

theorem join_with_append (sep : String) :
    ∀ (xs : List String) (x : String), xs ≠ [] →
      join_with sep (xs ++ [x]) = join_with sep xs ++ sep ++ x := by
  intro xs
  induction xs with
  | nil => intro x hx; exact absurd rfl hx
  | cons a t ih =>
    intro x hx
    cases t with
    | nil => simp [join_with]
    | cons b t2 =>
      have hih := ih x (by simp)
      simp only [List.cons_append, List.append_eq] at hih ⊢
      simp only [join_with]
      rw [hih]
      simp [String.append_assoc]

/-- Claim C1: for every unit id present in the loaded unit set, path
resolution is root-first and satisfies the spec invariant: when the
parent id is present and the parent walk terminates with path ps, the
unit path is ps followed by the delimiter and the unit short code; when
the unit has no parent, or its parent id is absent from the set, the
path is just the unit short code. -/
theorem C1_path_invariant (um : UnitMap) (i : Nat) (info : UnidadeRow)
    (h : lookup_assoc um i = some info) :
    (∀ pid pinfo ps fuel, info.id_unidade_fk = some pid →
      lookup_assoc um pid = some pinfo →
      resolve_path um fuel pid = some ps →
      resolve_path um (fuel + 1) i = some (ps ++ " / " ++ info.sigla))
    ∧ (∀ fuel, info.id_unidade_fk = none →
      resolve_path um (fuel + 1) i = some info.sigla)
    ∧ (∀ pid fuel, info.id_unidade_fk = some pid → lookup_assoc um pid = none →
      resolve_path um (fuel + 2) i = some info.sigla) := by
  refine ⟨?_, ?_, ?_⟩
  · intro pid pinfo ps fuel hpar hlk hres
    simp only [resolve_path, get_unit_path_optimized] at hres ⊢
    cases hgo : get_unit_path_go um fuel (some pid) [] with
    | none => rw [hgo] at hres; simp at hres
    | some pl =>
      rw [hgo] at hres
      simp only [Option.map_some', Option.some.injEq] at hres
      -- the parent walk consumed at least one fuel step and collected at
      -- least the parent sigla, so pl is nonempty
      have hplne : pl ≠ [] := by
        cases fuel with
        | zero => simp [get_unit_path_go] at hgo
        | succ f =>
          simp only [get_unit_path_go, hlk] at hgo
          rw [get_unit_path_go_append] at hgo
          simp at hgo
          obtain ⟨a, ha, hcons⟩ := hgo
          rw [← hcons]
          simp
      show (get_unit_path_go um (fuel + 1) (some i) []).map
          (fun p => join_with " / " p.reverse) = _
      simp only [get_unit_path_go, h, hpar]
      rw [get_unit_path_go_append, hgo]
      simp only [Option.map_some', Option.some.injEq, List.nil_append]
      rw [List.reverse_append]
      simp only [List.reverse_singleton, List.singleton_append]
      rw [join_with_append " / " pl.reverse info.sigla (by simpa using hplne)]
      rw [hres]
  · intro fuel hpar
    simp [resolve_path, get_unit_path_optimized, get_unit_path_go, h, hpar, join_with]
  · intro pid fuel hpar hlk
    show (get_unit_path_go um (fuel + 1 + 1) (some i) []).map
        (fun p => join_with " / " p.reverse) = _
    simp [get_unit_path_go, h, hpar, hlk, join_with]

/-- Concrete unit set of the spec scenario:
units [{id 1, code CMD, no parent}, {id 2, code B1, parent 1}]. -/
def exUM : UnitMap := [(1, ⟨"CMD", none⟩), (2, ⟨"B1", some 1⟩)]

/-- Witness for C1 at the spec concrete scenario: the resolved path of
unit 2 is CMD / B1, obtained from the invariant applied to its parent
path CMD. -/
theorem C1_path_invariant_witness :
    resolve_path exUM 2 2 = some "CMD / B1" := by
  have h := (C1_path_invariant exUM 2 ⟨"B1", some 1⟩ (by decide)).1 1
    ⟨"CMD", none⟩ "CMD" 1 rfl (by decide) (by decide)
  rw [h]
  decide

/-! ## Claim C2: the walk on a cyclic parent link -/

/-- A unit map with a malformed parent link: unit 1 is its own parent. -/
def cycUM : UnitMap := [(1, ⟨"A", some 1⟩)]

theorem cyc_go_none : ∀ (fuel : Nat) (acc : List String),
    get_unit_path_go cycUM fuel (some 1) acc = none := by
  intro fuel
  induction fuel with
  | zero => intro acc; simp [get_unit_path_go]
  | succ f ih =>
    intro acc
    have hlk : lookup_assoc cycUM 1 = some ⟨"A", some 1⟩ := by decide
    simp only [get_unit_path_go, hlk]
    exact ih (acc ++ ["A"])

/-- Claim C2 fails on the code: the while-loop of get_unit_path_optimized
has no visited set and no hop cap, so on a unit whose parent link forms a
cycle the walk exits within no finite number of iterations at all — in
particular not within the total unit count.  Formally, the fuel-indexed
embedding of the loop returns none (loop still running) for every fuel. -/
theorem C2_cycle_never_terminates :
    ∀ fuel : Nat, resolve_path cycUM fuel 1 = none := by
  intro fuel
  simp only [resolve_path, get_unit_path_optimized]
  rw [cyc_go_none fuel []]
  rfl

/-! ## Roster assembly (get_data, app.py lines 8-70) -/

/-- Row of the main SQL query of app.py lines 14-31: Militar inner-joined
with Posto_Graduacao and Quadro on the two foreign keys.  The redundant
copies of the join keys (id_posto_graduacao_fk, id_quadro_fk, id_quadro)
are omitted; id_posto_graduacao is kept since the final sort uses it. -/
structure JoinedRow where
  id_militar : Nat
  nome : String
  id_posto_graduacao : Nat
  posto_graduacao_sigla : String
  posto_graduacao : String
  quadro_sigla : String
  quadro : String
  id_unidade_atual_fk : Option Nat
deriving DecidableEq

/-- Combine one militar row with its matching rank and corps rows. -/
def mk_joined (m : MilitarRow) (pg : PostoRow) (q : QuadroRow) : JoinedRow :=
  ⟨m.id_militar, m.nome, pg.id_posto_graduacao, pg.sigla, pg.descricao,
    q.sigla, q.descricao, m.id_unidade_atual_fk⟩

/-- The inner join of the main query (app.py lines 27-29): one output row
per militar row and matching rank and corps rows, in source row order. -/
def sql_join (ms : List MilitarRow) (pgs : List PostoRow) (qs : List QuadroRow) :
    List JoinedRow :=
  ms.flatMap fun m => pgs.flatMap fun pg => qs.filterMap fun q =>
    if m.id_posto_graduacao_fk = pg.id_posto_graduacao ∧ m.id_quadro_fk = q.id_quadro
    then some (mk_joined m pg q) else none

/-- The inner join of the especialidades query (app.py lines 33-38):
one (member id, label) pair per link row joined with its Especialidade
row, in link order. -/
def esp_pairs (links : List LinkRow) (esps : List EspecialidadeRow) :
    List (Nat × String) :=
  links.flatMap fun l => esps.filterMap fun e =>
    if l.id_especialidade_fk = e.id_especialidade
    then some (l.id_militar_fk, e.tipo_especialidade) else none

/-- All specialty labels joined to one member id, in source join order
(the GROUP_CONCAT argument sequence for that member's group). -/
def member_labels (links : List LinkRow) (esps : List EspecialidadeRow)
    (mid : Nat) : List String :=
  (esp_pairs links esps).filterMap fun p =>
    if p.1 = mid then some p.2 else none

/-- First-occurrence deduplication, modelling the distinct grouping keys
of GROUP BY in first-appearance order. -/
def dedup_first {α : Type} [DecidableEq α] : List α → List α
  | [] => []
  | a :: t => a :: (dedup_first t).filter fun x => decide (x ≠ a)

/-- The df_especialidades query result (app.py lines 33-41): one row per
member id that has at least one link, carrying
GROUP_CONCAT(tipo_especialidade SEPARATOR comma-space) for that group. -/
def df_especialidades (links : List LinkRow) (esps : List EspecialidadeRow) :
    List (Nat × String) :=
  (dedup_first ((esp_pairs links esps).map Prod.fst)).map fun mid =>
    (mid, join_with ", " (member_labels links esps mid))

/-- A row of the final roster dataframe (columns selected at app.py line
66, id_unidade_atual_fk renamed to id_unidade at line 67).  The source
drops the id_militar display column at line 66; the embedding keeps it as
the row identity used by the merge at line 62. -/
structure Record where
  id_militar : Nat
  nome : String
  posto_graduacao_sigla : String
  posto_graduacao : String
  id_posto_graduacao : Nat
  quadro_sigla : String
  quadro : String
  unidade : String
  id_unidade : Option Nat
  especialidades : String
deriving DecidableEq

/-- Assemble a final record from a joined row, a resolved unit path and a
specialty entry. -/
def mk_record (j : JoinedRow) (unidade : String) (esp : String) : Record :=
  ⟨j.id_militar, j.nome, j.posto_graduacao_sigla, j.posto_graduacao,
    j.id_posto_graduacao, j.quadro_sigla, j.quadro, unidade,
    j.id_unidade_atual_fk, esp⟩

/-- The left merge of app.py line 62 followed by fillna at line 63: the
member's grouped specialty string when the group exists, else the
sentinel. -/
def esp_fill (links : List LinkRow) (esps : List EspecialidadeRow)
    (mid : Nat) : String :=
  match lookup_assoc (df_especialidades links esps) mid with
  | some s => s
  | none => "Nenhuma"

/-- Spec-level form of the specialty entry: the joined labels of the
member, or the sentinel when the member has no links. -/
def esp_entry_spec (links : List LinkRow) (esps : List EspecialidadeRow)
    (mid : Nat) : String :=
  if member_labels links esps mid = [] then "Nenhuma"
  else join_with ", " (member_labels links esps mid)

/-- Per-row dataframe apply in an Option monad: a result of none means
the operation on some row did not terminate (fuel ran out). -/
def optMap {α β : Type} (f : α → Option β) : List α → Option (List β)
  | [] => some []
  | x :: xs =>
    match f x, optMap f xs with
    | some y, some ys => some (y :: ys)
    | _, _ => none

/-- Build one final record from a joined row: attach the resolved unit
path (app.py line 59) and the merged specialty entry (lines 62-63). -/
def attach_row (um : UnitMap) (fuel : Nat) (links : List LinkRow)
    (esps : List EspecialidadeRow) (j : JoinedRow) : Option Record :=
  (get_unit_path_optimized um fuel j.id_unidade_atual_fk).map fun p =>
    mk_record j p (esp_fill links esps j.id_militar)

/-- The sort key relation of app.py line 68: ascending rank precedence id. -/
def rank_le (a b : Record) : Prop :=
  a.id_posto_graduacao ≤ b.id_posto_graduacao

instance : DecidableRel rank_le := fun a b => Nat.decLe _ _

instance : IsTotal Record rank_le := ⟨fun a b => Nat.le_total _ _⟩

instance : IsTrans Record rank_le := ⟨fun _ _ _ h1 h2 => Nat.le_trans h1 h2⟩

/-- get_data (app.py lines 8-70), i.e. the spec entry point build_roster:
join members with ranks and corps, attach unit paths and specialty
entries, and sort by rank precedence id. -/
def get_data (ms : List MilitarRow) (pgs : List PostoRow) (qs : List QuadroRow)
    (um : UnitMap) (links : List LinkRow) (esps : List EspecialidadeRow)
    (fuel : Nat) : Option (List Record) :=
  (optMap (attach_row um fuel links esps) (sql_join ms pgs qs)).map
    (List.insertionSort rank_le)

/-! ## Filter engine (app.py lines 109-126) -/

/-- A sidebar selection: the four multiselect values. -/
structure FilterSelection where
  unidades : List String
  postos : List String
  quadros : List String
  especialidades : List String
deriving DecidableEq

/-- The three KPI reductions of app.py lines 124-126. -/
structure Summary where
  total : Nat
  distinct_units : Nat
  distinct_ranks : Nat
deriving DecidableEq

/-- Python str.split at one separator character (x.split at the comma,
app.py line 119). -/
def split_chars (c : Char) : List Char → List Char → List (List Char)
  | [], acc => [acc.reverse]
  | x :: xs, acc =>
    if x = c then acc.reverse :: split_chars c xs [] else split_chars c xs (x :: acc)

/-- Python split on the comma character, as used at app.py line 119. -/
def pySplitComma (s : String) : List String :=
  (split_chars ',' s.data []).map String.mk

/-- Python str.strip: drop whitespace from both ends. -/
def pyStrip (s : String) : String :=
  String.mk (((s.data.dropWhile Char.isWhitespace).reverse.dropWhile
    Char.isWhitespace).reverse)

/-- The df.query predicate of app.py lines 109-111: the pandas == with a
list argument is elementwise membership in the selection list. -/
def base_match (sel : FilterSelection) (r : Record) : Bool :=
  decide (r.unidade ∈ sel.unidades) && decide (r.posto_graduacao_sigla ∈ sel.postos)
    && decide (r.quadro_sigla ∈ sel.quadros)

/-- The specialty row mask of app.py lines 118-119: some selected
specialty, stripped, equals some comma-split stripped token of the row's
especialidades string. -/
def especialidade_mask (sel_esp : List String) (x : String) : Bool :=
  sel_esp.any fun esp => decide (pyStrip esp ∈ (pySplitComma x).map pyStrip)

/-- filter_roster: the filtering of app.py lines 109-121 (the base query,
then, only when the specialty selection is nonempty, the specialty mask)
together with the KPI summary of lines 124-126. -/
def filter_roster (roster : List Record) (sel : FilterSelection) :
    List Record × Summary :=
  let df1 := roster.filter (base_match sel)
  let df2 := if sel.especialidades.isEmpty then df1
    else df1.filter fun r => especialidade_mask sel.especialidades r.especialidades
  (df2, ⟨df2.length, (df2.map Record.unidade).dedup.length,
    (df2.map Record.posto_graduacao_sigla).dedup.length⟩)

/-! ## Helper lemmas about assembly -/

theorem optMap_mem {α β : Type} (f : α → Option β) :
    ∀ {l : List α} {l2 : List β}, optMap f l = some l2 →
      ∀ y : β, (y ∈ l2 ↔ ∃ x ∈ l, f x = some y) := by
  intro l
  induction l with
  | nil =>
    intro l2 h y
    simp only [optMap, Option.some.injEq] at h
    subst h
    simp
  | cons x xs ih =>
    intro l2 h y
    cases hfx : f x with
    | none => simp [optMap, hfx] at h
    | some y0 =>
      cases hrest : optMap f xs with
      | none => simp [optMap, hfx, hrest] at h
      | some ys =>
        simp only [optMap, hfx, hrest, Option.some.injEq] at h
        subst h
        constructor
        · intro hy
          rcases List.mem_cons.1 hy with hy0 | hys
          · exact ⟨x, List.mem_cons_self x xs, by rw [hfx, hy0]⟩
          · obtain ⟨x2, hx2, hfx2⟩ := (ih hrest y).1 hys
            exact ⟨x2, List.mem_cons_of_mem x hx2, hfx2⟩
        · rintro ⟨x2, hx2, hfx2⟩
          rcases List.mem_cons.1 hx2 with hx | hx
          · subst hx
            rw [hfx] at hfx2
            exact List.mem_cons.2 (Or.inl (Option.some.inj hfx2).symm)
          · exact List.mem_cons.2 (Or.inr ((ih hrest y).2 ⟨x2, hx, hfx2⟩))

theorem optMap_dom {α β : Type} (f : α → Option β) :
    ∀ {l : List α} {l2 : List β}, optMap f l = some l2 →
      ∀ x ∈ l, ∃ y, f x = some y := by
  intro l
  induction l with
  | nil => intro l2 h x hx; simp at hx
  | cons a xs ih =>
    intro l2 h x hx
    cases hfa : f a with
    | none => simp [optMap, hfa] at h
    | some y0 =>
      cases hrest : optMap f xs with
      | none => simp [optMap, hfa, hrest] at h
      | some ys =>
        rcases List.mem_cons.1 hx with hx | hx
        · exact ⟨y0, by rw [hx, hfa]⟩
        · exact ih hrest x hx

theorem mem_sql_join {ms : List MilitarRow} {pgs : List PostoRow}
    {qs : List QuadroRow} (j : JoinedRow) :
    j ∈ sql_join ms pgs qs ↔ ∃ m ∈ ms, ∃ pg ∈ pgs, ∃ q ∈ qs,
      m.id_posto_graduacao_fk = pg.id_posto_graduacao ∧
      m.id_quadro_fk = q.id_quadro ∧ mk_joined m pg q = j := by
  simp [sql_join, List.mem_flatMap, List.mem_filterMap,
    Option.ite_none_right_eq_some, Option.some.injEq, and_assoc]

theorem lookup_assoc_map_graph {g : Nat → String} :
    ∀ (l : List Nat) (k : Nat),
      lookup_assoc (l.map fun mid => (mid, g mid)) k =
        if k ∈ l then some (g k) else none := by
  intro l
  induction l with
  | nil => intro k; simp [lookup_assoc]
  | cons a t ih =>
    intro k
    by_cases hak : a = k
    · subst hak
      simp [lookup_assoc]
    · have hka : ¬ k = a := fun hh => hak hh.symm
      simp [lookup_assoc, hak, hka, ih k]

theorem mem_dedup_first {α : Type} [DecidableEq α] :
    ∀ (l : List α) (k : α), k ∈ dedup_first l ↔ k ∈ l := by
  intro l
  induction l with
  | nil => intro k; simp [dedup_first]
  | cons a t ih =>
    intro k
    by_cases hka : k = a
    · subst hka
      simp [dedup_first]
    · simp [dedup_first, List.mem_filter, ih k, hka]

theorem filterMap_graph_ne_nil (l : List (Nat × String)) (mid : Nat) :
    (l.filterMap fun p => if p.1 = mid then some p.2 else none) ≠ [] ↔
      mid ∈ l.map Prod.fst := by
  induction l with
  | nil => simp
  | cons p t ih =>
    by_cases hp : p.1 = mid
    · refine ⟨fun _ => ?_, fun _ => ?_⟩
      · rw [List.map_cons]
        exact List.mem_cons.2 (Or.inl hp.symm)
      · simp [List.filterMap_cons, hp]
    · have hp2 : ¬ mid = p.1 := fun hh => hp hh.symm
      simp [List.filterMap_cons, hp, hp2, ih]

theorem lookup_df_especialidades (links : List LinkRow)
    (esps : List EspecialidadeRow) (mid : Nat) :
    lookup_assoc (df_especialidades links esps) mid =
      if member_labels links esps mid = [] then none
      else some (join_with ", " (member_labels links esps mid)) := by
  unfold df_especialidades
  rw [lookup_assoc_map_graph]
  by_cases hl : member_labels links esps mid = []
  · rw [if_pos hl, if_neg]
    intro hmem
    exact (filterMap_graph_ne_nil _ mid).2 ((mem_dedup_first _ mid).1 hmem) hl
  · rw [if_neg hl, if_pos]
    exact (mem_dedup_first _ mid).2 ((filterMap_graph_ne_nil _ mid).1 hl)

theorem esp_fill_eq (links : List LinkRow) (esps : List EspecialidadeRow)
    (mid : Nat) : esp_fill links esps mid = esp_entry_spec links esps mid := by
  unfold esp_fill esp_entry_spec
  rw [lookup_df_especialidades]
  by_cases hl : member_labels links esps mid = []
  · simp [hl]
  · simp [hl]

theorem mem_get_data {ms : List MilitarRow} {pgs : List PostoRow}
    {qs : List QuadroRow} {um : UnitMap} {links : List LinkRow}
    {esps : List EspecialidadeRow} {fuel : Nat} {roster : List Record}
    (hb : get_data ms pgs qs um links esps fuel = some roster) (r : Record) :
    r ∈ roster ↔ ∃ j ∈ sql_join ms pgs qs,
      attach_row um fuel links esps j = some r := by
  unfold get_data at hb
  cases hrows : optMap (attach_row um fuel links esps) (sql_join ms pgs qs) with
  | none => rw [hrows] at hb; simp at hb
  | some rows =>
    rw [hrows] at hb
    simp only [Option.map_some', Option.some.injEq] at hb
    subst hb
    rw [(List.perm_insertionSort rank_le rows).mem_iff]
    exact optMap_mem _ hrows r

/-! ## Claim C4: sort order and order preservation -/

/-- Claim C4: the assembled roster is sorted ascending by the rank
precedence id (app.py line 68), and for every roster and selection,
filter_roster preserves the relative order of all retained records: its
output is a sublist (order-preserving subsequence) of its input. -/
theorem C4_sorted_and_order_preserving (ms : List MilitarRow)
    (pgs : List PostoRow) (qs : List QuadroRow) (um : UnitMap)
    (links : List LinkRow) (esps : List EspecialidadeRow) (fuel : Nat)
    (roster : List Record)
    (hb : get_data ms pgs qs um links esps fuel = some roster) :
    List.Sorted rank_le roster ∧
      ∀ (roster2 : List Record) (sel : FilterSelection),
        ((filter_roster roster2 sel).1).Sublist roster2 := by
  constructor
  · unfold get_data at hb
    cases hrows : optMap (attach_row um fuel links esps) (sql_join ms pgs qs) with
    | none => rw [hrows] at hb; simp at hb
    | some rows =>
      rw [hrows] at hb
      simp only [Option.map_some', Option.some.injEq] at hb
      subst hb
      exact List.sorted_insertionSort rank_le rows
  · intro roster2 sel
    simp only [filter_roster]
    split
    · exact List.filter_sublist roster2
    · exact (List.filter_sublist _).trans (List.filter_sublist roster2)

/-- Members for the C4 witness: insertion order is Major before Colonel,
so the sort must swap them. -/
def c4ms : List MilitarRow := [⟨1, "Ana", 2, 1, some 1⟩, ⟨2, "Bea", 1, 1, none⟩]

def c4pgs : List PostoRow := [⟨1, "CEL", "Coronel"⟩, ⟨2, "MAJ", "Major"⟩]

def c4qs : List QuadroRow := [⟨1, "QOBM", "Combatente"⟩]

def c4um : UnitMap := [(1, ⟨"COCB-N", none⟩)]

def c4roster : List Record :=
  [⟨2, "Bea", "CEL", "Coronel", 1, "QOBM", "Combatente", "", none, "Nenhuma"⟩,
   ⟨1, "Ana", "MAJ", "Major", 2, "QOBM", "Combatente", "COCB-N", some 1, "Nenhuma"⟩]

def c4sel : FilterSelection := ⟨["COCB-N"], ["MAJ"], ["QOBM"], []⟩

/-- Witness for C4 at a concrete build whose source order is inverted
relative to rank precedence. -/
theorem C4_sorted_and_order_preserving_witness :
    get_data c4ms c4pgs c4qs c4um [] [] 2 = some c4roster ∧
      List.Sorted rank_le c4roster ∧
      ((filter_roster c4roster c4sel).1).Sublist c4roster := by
  refine ⟨by decide, ?_, ?_⟩
  · exact (C4_sorted_and_order_preserving c4ms c4pgs c4qs c4um [] [] 2 c4roster
      (by decide)).1
  · exact (C4_sorted_and_order_preserving c4ms c4pgs c4qs c4um [] [] 2 c4roster
      (by decide)).2 c4roster c4sel

/-! ## Claim C9: the summary is a pure reduction of the filtered set -/

/-- Claim C9: for every roster and selection, the summary of
filter_roster is a pure reduction over the filtered records: total is
their count, distinct_units the cardinality of the set of their unit
paths, distinct_ranks the cardinality of the set of their rank codes. -/
theorem C9_summary_reductions (roster : List Record) (sel : FilterSelection) :
    (filter_roster roster sel).2.total = (filter_roster roster sel).1.length ∧
    (filter_roster roster sel).2.distinct_units =
      ((filter_roster roster sel).1.map Record.unidade).toFinset.card ∧
    (filter_roster roster sel).2.distinct_ranks =
      ((filter_roster roster sel).1.map Record.posto_graduacao_sigla).toFinset.card := by
  refine ⟨rfl, ?_, ?_⟩ <;> simp [filter_roster, List.card_toFinset]

/-! ## Claim C7: the full selection retains the whole roster -/

/-- Claim C7: a selection containing every unit path, rank code and corps
code present in the roster, with an empty specialty selection, retains
the whole roster, same records in the same order. -/
theorem C7_full_selection_identity (roster : List Record)
    (sel : FilterSelection)
    (hu : ∀ r ∈ roster, r.unidade ∈ sel.unidades)
    (hp : ∀ r ∈ roster, r.posto_graduacao_sigla ∈ sel.postos)
    (hq : ∀ r ∈ roster, r.quadro_sigla ∈ sel.quadros)
    (he : sel.especialidades = []) :
    (filter_roster roster sel).1 = roster := by
  have hmask : sel.especialidades.isEmpty = true := by rw [he]; rfl
  simp only [filter_roster, hmask, if_true]
  exact List.filter_eq_self.2 fun r hr => by
    simp [base_match, hu r hr, hp r hr, hq r hr]

def c7rec : Record := ⟨1, "Ana", "MAJ", "Major", 2, "QOBM", "C", "U", none, "Nenhuma"⟩

def c7sel : FilterSelection := ⟨["U"], ["MAJ"], ["QOBM"], []⟩

/-- Witness for C7 at a one-record roster covered by the selection. -/
theorem C7_full_selection_identity_witness :
    (filter_roster [c7rec] c7sel).1 = [c7rec] :=
  C7_full_selection_identity [c7rec] c7sel (by decide) (by decide) (by decide) rfl

/-! ## Claim C3: characterization of the filter predicate -/

/-- The record-level predicate actually computed by app.py lines 109-121:
membership of the three dimension values in their selections, and, unless
the specialty selection is empty, some selected specialty — itself
stripped of whitespace — equal to some comma-split stripped token of the
record's especialidades string. -/
def filter_pred (sel : FilterSelection) (r : Record) : Prop :=
  r.unidade ∈ sel.unidades ∧ r.posto_graduacao_sigla ∈ sel.postos ∧
    r.quadro_sigla ∈ sel.quadros ∧
    (sel.especialidades = [] ∨ ∃ esp ∈ sel.especialidades,
      pyStrip esp ∈ (pySplitComma r.especialidades).map pyStrip)

/-- Modelled from the claim's words: as C3 states it, a trimmed token of
the record must equal the selected specialty itself (the selection entry
is not trimmed). -/
def filter_pred_claim (sel : FilterSelection) (r : Record) : Prop :=
  r.unidade ∈ sel.unidades ∧ r.posto_graduacao_sigla ∈ sel.postos ∧
    r.quadro_sigla ∈ sel.quadros ∧
    (sel.especialidades = [] ∨ ∃ esp ∈ sel.especialidades,
      esp ∈ (pySplitComma r.especialidades).map pyStrip)

instance filter_pred_dec (sel : FilterSelection) (r : Record) :
    Decidable (filter_pred sel r) := by
  unfold filter_pred
  infer_instance

instance filter_pred_claim_dec (sel : FilterSelection) (r : Record) :
    Decidable (filter_pred_claim sel r) := by
  unfold filter_pred_claim
  infer_instance

theorem base_match_iff (sel : FilterSelection) (r : Record) :
    base_match sel r = true ↔ r.unidade ∈ sel.unidades ∧
      r.posto_graduacao_sigla ∈ sel.postos ∧ r.quadro_sigla ∈ sel.quadros := by
  simp [base_match, Bool.and_eq_true, and_assoc]

theorem especialidade_mask_iff (sel_esp : List String) (x : String) :
    especialidade_mask sel_esp x = true ↔
      ∃ esp ∈ sel_esp, pyStrip esp ∈ (pySplitComma x).map pyStrip := by
  simp [especialidade_mask, List.any_eq_true]

def c3rec : Record := ⟨1, "Ana", "PS", "PD", 1, "QS", "QD", "U", none, "Resgate"⟩

def c3sel : FilterSelection := ⟨["U"], ["PS"], ["QS"], [" Resgate"]⟩

/-- Claim C3 counterexample: with the selected specialty written with a
leading space, the code strips the selection entry and retains the
record, but the record does not satisfy the claim's predicate, whose
membership test uses the selected specialty untrimmed.  So filter_roster
does not return exactly the records satisfying the claim's condition. -/
theorem C3_counterexample :
    (filter_roster [c3rec] c3sel).1 = [c3rec] ∧
      ¬ filter_pred_claim c3sel c3rec := by
  constructor
  · decide
  · decide

/-- Claim C3 (amended): filter_roster returns exactly the records
satisfying the conjunction of the three membership tests, with the
specialty clause empty-or-witnessed, where the selected specialty is
likewise trimmed before comparison with the trimmed tokens.  The empty
unit/rank/corps selection then yields zero matches, while an empty
specialty selection matches everything. -/
theorem C3_filter_characterization (roster : List Record)
    (sel : FilterSelection) :
    (filter_roster roster sel).1 =
      roster.filter fun r => decide (filter_pred sel r) := by
  cases he : sel.especialidades with
  | nil =>
    have hmask : sel.especialidades.isEmpty = true := by rw [he]; rfl
    simp only [filter_roster, hmask, if_true]
    refine List.filter_congr fun r hr => ?_
    rw [Bool.eq_iff_iff, base_match_iff, decide_eq_true_eq]
    unfold filter_pred
    rw [he]
    simp [and_assoc]
  | cons e es =>
    have hmask : sel.especialidades.isEmpty = false := by rw [he]; rfl
    simp only [filter_roster, hmask, Bool.false_eq_true, if_false]
    rw [List.filter_filter]
    refine List.filter_congr fun r hr => ?_
    rw [Bool.eq_iff_iff, Bool.and_eq_true, base_match_iff,
      especialidade_mask_iff, decide_eq_true_eq]
    unfold filter_pred
    rw [he]
    constructor
    · rintro ⟨⟨hm1, hm2⟩, hb1, hb2, hb3⟩
      exact ⟨hb1, hb2, hb3, Or.inr ⟨hm1, hm2⟩⟩
    · rintro ⟨hb1, hb2, hb3, hd⟩
      rcases hd with hd | hd
      · exact absurd hd (List.cons_ne_nil e es)
      · exact ⟨hd, hb1, hb2, hb3⟩

/-! ## Claim C8: disjunctive specialty semantics -/

def c8rec : Record :=
  ⟨1, "Ana", "PS", "PD", 1, "QS", "QD", "U", none, "Combate, Resgate"⟩

def c8recN : Record := ⟨2, "Bea", "PS", "PD", 1, "QS", "QD", "U", none, "Nenhuma"⟩

def c8selA : FilterSelection := ⟨["U"], ["PS"], ["QS"], ["Resgate"]⟩

def c8selB : FilterSelection := ⟨["U"], ["PS"], ["QS"], ["Resgate", "Mergulho"]⟩

def c8selN : FilterSelection := ⟨["U"], ["PS"], ["QS"], ["Nenhuma"]⟩

/-- Claim C8 counterexample: a record whose specialties string is the
sentinel is retained by the nonempty selection consisting of the literal
sentinel string — the code only removes the exact sentinel from the
widget options, while the mask itself matches it like any token.  So the
sentinel record does not match NO nonempty selection. -/
theorem C8_counterexample :
    c8selN.especialidades ≠ [] ∧ (filter_roster [c8recN] c8selN).1 = [c8recN] := by
  constructor
  · decide
  · decide

/-- Claim C8 (amended): a record with specialties string Combate, Resgate
matches the selection Resgate and also the selection Resgate, Mergulho;
and a record whose specialties string is the sentinel matches no nonempty
specialty selection none of whose entries strips to the sentinel itself. -/
theorem C8_specialty_or_semantics :
    (filter_roster [c8rec] c8selA).1 = [c8rec] ∧
    (filter_roster [c8rec] c8selB).1 = [c8rec] ∧
    ∀ (roster : List Record) (sel : FilterSelection) (r : Record),
      sel.especialidades ≠ [] →
      (∀ e ∈ sel.especialidades, pyStrip e ≠ "Nenhuma") →
      r.especialidades = "Nenhuma" → r ∉ (filter_roster roster sel).1 := by
  refine ⟨by decide, by decide, ?_⟩
  intro roster sel r hne hsel hr hmem
  have hmask : sel.especialidades.isEmpty = false := by
    cases hsel2 : sel.especialidades with
    | nil => exact absurd hsel2 hne
    | cons a t => rfl
  simp only [filter_roster, hmask, Bool.false_eq_true, if_false] at hmem
  have h2 := (List.mem_filter.1 hmem).2
  rw [hr] at h2
  obtain ⟨e, he, hd⟩ := (especialidade_mask_iff sel.especialidades "Nenhuma").1 h2
  have heval : (pySplitComma "Nenhuma").map pyStrip = ["Nenhuma"] := by decide
  rw [heval] at hd
  exact hsel e he (by simpa using hd)

/-- Witness for the amended C8: the hypotheses hold for the selection
Resgate, and the sentinel record is indeed not retained under it. -/
theorem C8_specialty_or_semantics_witness :
    (c8selA.especialidades ≠ [] ∧
      ∀ e ∈ c8selA.especialidades, pyStrip e ≠ "Nenhuma") ∧
      c8recN ∉ (filter_roster [c8recN] c8selA).1 := by
  refine ⟨⟨by decide, by decide⟩, ?_⟩
  exact C8_specialty_or_semantics.2.2 [c8recN] c8selA c8recN
    (by decide) (by decide) rfl

/-! ## Claim C5: the specialty entry of every assembled record -/

def c5pgs : List PostoRow := [⟨1, "PS", "PD"⟩]

def c5qs : List QuadroRow := [⟨1, "QS", "QD"⟩]

def c5xms : List MilitarRow := [⟨1, "Ana", 1, 1, none⟩, ⟨2, "Bea", 1, 1, none⟩]

def c5xlinks : List LinkRow := [⟨1, 10⟩, ⟨1, 11⟩, ⟨2, 12⟩]

def c5xesps : List EspecialidadeRow := [⟨10, "X"⟩, ⟨11, "X"⟩, ⟨12, ""⟩]

/-- Claim C5 counterexample: GROUP_CONCAT in app.py line 36 does not
deduplicate, so a member linked to two specialties carrying the same
label gets the label twice, not the joined distinct labels; and a member
whose only linked label is the empty string gets an empty (though
present) entry, so the entry is not never-empty either. -/
theorem C5_counterexample :
    (get_data c5xms c5pgs c5qs [] c5xlinks c5xesps 1).map
      (List.map Record.especialidades) = some ["X, X", ""] ∧
    join_with ", " (dedup_first (member_labels c5xlinks c5xesps 1)) = "X" ∧
    ("X, X" : String) ≠ "X" := by
  refine ⟨by decide, by decide, by decide⟩

/-- Claim C5 (amended): in every successful build, every record's
especialidades entry is present and equals the delimiter-joined string of
the specialty labels linked to that member in source join order — with
duplicate labels kept, not collapsed — or the sentinel when the member
has zero links; and every member whose rank and corps resolve does get a
record carrying exactly that entry (the left merge never drops or blanks
a member). -/
theorem C5_especialidades_entry (ms : List MilitarRow) (pgs : List PostoRow)
    (qs : List QuadroRow) (um : UnitMap) (links : List LinkRow)
    (esps : List EspecialidadeRow) (fuel : Nat) (roster : List Record)
    (hb : get_data ms pgs qs um links esps fuel = some roster) :
    (∀ r ∈ roster, r.especialidades = esp_entry_spec links esps r.id_militar) ∧
    ∀ m pg q p, m ∈ ms → pg ∈ pgs → q ∈ qs →
      m.id_posto_graduacao_fk = pg.id_posto_graduacao →
      m.id_quadro_fk = q.id_quadro →
      get_unit_path_optimized um fuel m.id_unidade_atual_fk = some p →
      mk_record (mk_joined m pg q) p (esp_entry_spec links esps m.id_militar)
        ∈ roster := by
  constructor
  · intro r hr
    obtain ⟨j, hj, hat⟩ := (mem_get_data hb r).1 hr
    unfold attach_row at hat
    cases hpz : get_unit_path_optimized um fuel j.id_unidade_atual_fk with
    | none => rw [hpz] at hat; simp at hat
    | some p =>
      rw [hpz] at hat
      simp only [Option.map_some', Option.some.injEq] at hat
      rw [← hat]
      show esp_fill links esps j.id_militar = _
      rw [esp_fill_eq]
      rfl
  · intro m pg q p hm hpg hq h1 h2 hpath
    apply (mem_get_data hb _).2
    refine ⟨mk_joined m pg q, (mem_sql_join _).2 ⟨m, hm, pg, hpg, q, hq, h1, h2, rfl⟩, ?_⟩
    unfold attach_row
    have hfk : (mk_joined m pg q).id_unidade_atual_fk = m.id_unidade_atual_fk := rfl
    rw [hfk, hpath]
    simp only [Option.map_some', Option.some.injEq]
    rw [esp_fill_eq]
    rfl

def c5ms : List MilitarRow := [⟨1, "Ana", 1, 1, none⟩]

def c5links : List LinkRow := [⟨1, 10⟩]

def c5esps : List EspecialidadeRow := [⟨10, "Salvamento"⟩]

def c5roster : List Record :=
  [⟨1, "Ana", "PS", "PD", 1, "QS", "QD", "", none, "Salvamento"⟩]

/-- Witness for the amended C5 at a one-member, one-link build. -/
theorem C5_especialidades_entry_witness :
    get_data c5ms c5pgs c5qs [] c5links c5esps 1 = some c5roster ∧
      mk_record (mk_joined ⟨1, "Ana", 1, 1, none⟩ ⟨1, "PS", "PD"⟩ ⟨1, "QS", "QD"⟩)
        "" (esp_entry_spec c5links c5esps 1) ∈ c5roster := by
  refine ⟨by decide, ?_⟩
  exact (C5_especialidades_entry c5ms c5pgs c5qs [] c5links c5esps 1 c5roster
      (by decide)).2 ⟨1, "Ana", 1, 1, none⟩ ⟨1, "PS", "PD"⟩ ⟨1, "QS", "QD"⟩ ""
    (by decide) (by decide) (by decide) rfl rfl rfl

/-! ## Claim C6: members with no rank or corps match are rejected -/

/-- Claim C6: a member whose rank id or corps id has no matching lookup
row is rejected by the inner join of the main query (app.py lines 27-29):
no record for that member reaches the roster, so no record with missing
rank or corps dimensions is ever emitted.  Member ids are assumed unique,
as they are primary keys in the source. -/
theorem C6_unmatched_member_rejected (ms : List MilitarRow)
    (pgs : List PostoRow) (qs : List QuadroRow) (um : UnitMap)
    (links : List LinkRow) (esps : List EspecialidadeRow) (fuel : Nat)
    (roster : List Record) (m : MilitarRow)
    (hb : get_data ms pgs qs um links esps fuel = some roster)
    (hid : ∀ m2 ∈ ms, m2.id_militar = m.id_militar → m2 = m)
    (hmiss : (∀ pg ∈ pgs, pg.id_posto_graduacao ≠ m.id_posto_graduacao_fk) ∨
      (∀ q ∈ qs, q.id_quadro ≠ m.id_quadro_fk)) :
    ∀ r ∈ roster, r.id_militar ≠ m.id_militar := by
  intro r hr hrid
  obtain ⟨j, hj, hat⟩ := (mem_get_data hb r).1 hr
  obtain ⟨m2, hm2, pg, hpg, q, hq, h1, h2, hjeq⟩ := (mem_sql_join j).1 hj
  have hrj : r.id_militar = j.id_militar := by
    unfold attach_row at hat
    cases hpz : get_unit_path_optimized um fuel j.id_unidade_atual_fk with
    | none => rw [hpz] at hat; simp at hat
    | some p =>
      rw [hpz] at hat
      simp only [Option.map_some', Option.some.injEq] at hat
      rw [← hat]
      rfl
  have hj2 : j.id_militar = m2.id_militar := by rw [← hjeq]; rfl
  have hm2m : m2 = m := hid m2 hm2 (by rw [← hj2, ← hrj, hrid])
  subst hm2m
  rcases hmiss with hmiss | hmiss
  · exact hmiss pg hpg h1.symm
  · exact hmiss q hq h2.symm

def c6ms : List MilitarRow := [⟨1, "Ana", 1, 1, none⟩, ⟨2, "Bea", 99, 1, none⟩]

def c6pgs : List PostoRow := [⟨1, "PS", "PD"⟩]

def c6qs : List QuadroRow := [⟨1, "QS", "QD"⟩]

def c6rec : Record := ⟨1, "Ana", "PS", "PD", 1, "QS", "QD", "", none, "Nenhuma"⟩

/-- Witness for C6: a member with an unmatched rank id contributes no
record to the built roster. -/
theorem C6_unmatched_member_rejected_witness :
    get_data c6ms c6pgs c6qs [] [] [] 1 = some [c6rec] ∧
      ∀ r ∈ [c6rec], r.id_militar ≠ 2 := by
  refine ⟨by decide, ?_⟩
  exact C6_unmatched_member_rejected c6ms c6pgs c6qs [] [] [] 1 [c6rec]
    ⟨2, "Bea", 99, 1, none⟩ (by decide) (by decide) (Or.inl (by decide))

/-! ## Claim C10: null or dangling current-unit id yields the empty path -/

/-- Claim C10: a null current-unit id (NaN, modelled as none) resolves to
the empty path string, as does a unit id absent from the loaded unit set;
and the member's row is kept in the assembled roster with that empty
unit path rather than being dropped or raising. -/
theorem C10_missing_unit_empty_path (um : UnitMap) :
    (∀ fuel, get_unit_path_optimized um fuel none = some "") ∧
    (∀ fuel uid, lookup_assoc um uid = none →
      get_unit_path_optimized um (fuel + 1) (some uid) = some "") ∧
    ∀ (ms : List MilitarRow) (pgs : List PostoRow) (qs : List QuadroRow)
      (links : List LinkRow) (esps : List EspecialidadeRow) (fuel : Nat)
      (roster : List Record) (m : MilitarRow) (pg : PostoRow) (q : QuadroRow),
      get_data ms pgs qs um links esps fuel = some roster →
      m ∈ ms → pg ∈ pgs → q ∈ qs →
      m.id_posto_graduacao_fk = pg.id_posto_graduacao →
      m.id_quadro_fk = q.id_quadro →
      (m.id_unidade_atual_fk = none ∨
        ∃ u, m.id_unidade_atual_fk = some u ∧ lookup_assoc um u = none) →
      mk_record (mk_joined m pg q) "" (esp_entry_spec links esps m.id_militar)
        ∈ roster := by
  have hnone : ∀ fuel, get_unit_path_optimized um fuel none = some "" := by
    intro fuel
    cases fuel <;> simp [get_unit_path_optimized, get_unit_path_go, join_with]
  have hdang : ∀ fuel uid, lookup_assoc um uid = none →
      get_unit_path_optimized um (fuel + 1) (some uid) = some "" := by
    intro fuel uid h
    simp [get_unit_path_optimized, get_unit_path_go, h, join_with]
  refine ⟨hnone, hdang, ?_⟩
  intro ms pgs qs links esps fuel roster m pg q hb hm hpg hq h1 h2 hmiss
  have hj : mk_joined m pg q ∈ sql_join ms pgs qs :=
    (mem_sql_join _).2 ⟨m, hm, pg, hpg, q, hq, h1, h2, rfl⟩
  have hfk : (mk_joined m pg q).id_unidade_atual_fk = m.id_unidade_atual_fk := rfl
  have hpath : get_unit_path_optimized um fuel m.id_unidade_atual_fk = some "" := by
    rcases hmiss with hmiss | ⟨u, hu, hlk⟩
    · rw [hmiss]
      exact hnone fuel
    · have hdom : ∃ y, attach_row um fuel links esps (mk_joined m pg q) = some y := by
        unfold get_data at hb
        cases hrows : optMap (attach_row um fuel links esps) (sql_join ms pgs qs) with
        | none => rw [hrows] at hb; simp at hb
        | some rows => exact optMap_dom _ hrows _ hj
      obtain ⟨y, hy⟩ := hdom
      unfold attach_row at hy
      cases hpz : get_unit_path_optimized um fuel (mk_joined m pg q).id_unidade_atual_fk with
      | none => rw [hpz] at hy; simp at hy
      | some p =>
        rw [hfk, hu] at hpz
        cases fuel with
        | zero => simp [get_unit_path_optimized, get_unit_path_go] at hpz
        | succ f =>
          rw [hu]
          exact hdang f u hlk
  apply (mem_get_data hb _).2
  refine ⟨mk_joined m pg q, hj, ?_⟩
  unfold attach_row
  rw [hfk, hpath]
  simp only [Option.map_some', Option.some.injEq]
  rw [esp_fill_eq]
  rfl

def c10um : UnitMap := [(5, ⟨"S", none⟩)]

def c10ms : List MilitarRow := [⟨1, "Ana", 1, 1, some 99⟩]

def c10pgs : List PostoRow := [⟨1, "PS", "PD"⟩]

def c10qs : List QuadroRow := [⟨1, "QS", "QD"⟩]

def c10roster : List Record :=
  [⟨1, "Ana", "PS", "PD", 1, "QS", "QD", "", some 99, "Nenhuma"⟩]

/-- Witness for C10: the null id and a dangling id 99 both resolve to the
empty path, and the member carrying the dangling id is kept in the built
roster with an empty unit path. -/
theorem C10_missing_unit_empty_path_witness :
    get_unit_path_optimized c10um 3 none = some "" ∧
    (lookup_assoc c10um 99 = none ∧
      get_unit_path_optimized c10um 3 (some 99) = some "") ∧
    get_data c10ms c10pgs c10qs c10um [] [] 1 = some c10roster ∧
    mk_record (mk_joined ⟨1, "Ana", 1, 1, some 99⟩ ⟨1, "PS", "PD"⟩ ⟨1, "QS", "QD"⟩)
      "" (esp_entry_spec [] [] 1) ∈ c10roster := by
  refine ⟨(C10_missing_unit_empty_path c10um).1 3,
    ⟨by decide, (C10_missing_unit_empty_path c10um).2.1 2 99 (by decide)⟩,
    by decide, ?_⟩
  exact (C10_missing_unit_empty_path c10um).2.2 c10ms c10pgs c10qs [] [] 1
    c10roster ⟨1, "Ana", 1, 1, some 99⟩ ⟨1, "PS", "PD"⟩ ⟨1, "QS", "QD"⟩
    (by decide) (by decide) (by decide) (by decide) rfl rfl
    (Or.inr ⟨99, rfl, by decide⟩)

end COCBN
